import Mathlib

/-!
Verification of the pycurse download engine (src/src/lib.rs).

The Rust source is a curl-multi based download engine: a worker loop
(`Downloader::thread_runner`) pulls URL tasks from an unbounded channel,
registers one curl easy handle per task in a `Multi`, correlates completions
back to their URLs through two `HashMap`s keyed by an integer token, and pushes
`Response` values onto an unbounded response channel.  A PyO3 facade
(`CurlDownloader`) submits tasks and receives responses through a
`lazy_static` mutex-guarded singleton.

The shallow embedding below mirrors the source:
  * bytes (`u8`) are `Nat` values, `Vec<u8>` is `List Nat`;
  * `i64` status codes are `Int`;
  * the two `HashMap<usize, _>` tables are association lists with
    most-recent-insert-first lookup (`alookup`), matching `HashMap` lookup
    semantics because the engine only ever inserts fresh keys;
  * `Result`/`panic` is `Except PanicMsg`;
  * the network side of libcurl (data arriving in `Collector` buffers, the
    value returned by `Multi::perform`, the messages drained by
    `Multi::messages`) is an oracle input `IterInput` fed to each loop
    iteration.
-/

namespace Pycurse

/-- Bytes of a body buffer; `u8` values are modelled as `Nat`. -/
abbrev Byte := Nat

/-- Embeds `struct Response` (lib.rs lines 14-18): url, `i64` status code,
accumulated body bytes. -/
structure Response where
  url : String
  status_code : Int
  data : List Byte
deriving Repr, DecidableEq

/-- Embeds `impl Handler for Collector` (lib.rs lines 21-27): the write
callback appends the chunk to the buffer and reports the chunk length. -/
def Collector.write (buf : List Byte) (chunk : List Byte) : List Byte × Nat :=
  (buf ++ chunk, chunk.length)

/-- Observable state of one `Easy2Handle<Collector>`: the collector buffer and
the response code libcurl will report through `response_code()` (none while the
server has not answered). -/
structure HandleState where
  buffer : List Byte
  responseCode : Option Nat
deriving Repr, DecidableEq

/-- Transport-level outcome carried by a `Message` for a finished transfer:
`result_for2` yields `Ok(())` or `Err(curl_error)`. -/
inductive TransferResult
  | ok
  | err
deriving Repr, DecidableEq

/-- Embeds one `curl::multi::Message`: `token()` may fail (modelled by
`none`), and `result_for2` returns `None` on a token mismatch with the
handle. -/
structure Message where
  token : Option Nat
  result : Option TransferResult
deriving Repr, DecidableEq

/-- Network activity applied to the handle set while `Multi::perform` runs:
libcurl either feeds bytes to a collector through `Collector::write` or
records the HTTP status a server reported for a token. -/
inductive NetEvent
  | write (token : Nat) (chunk : List Byte)
  | setCode (token : Nat) (code : Nat)
deriving Repr, DecidableEq

/-- Oracle input for one iteration of the worker loop: the task the task
channel yields (none when the pull times out or the queue is empty), the
network activity during `Multi::perform`, the running-transfer count
`Multi::perform` returns, and the messages `Multi::messages` drains. -/
structure IterInput where
  task : Option String
  netEvents : List NetEvent
  performResult : Nat
  messages : List Message
deriving Repr, DecidableEq

/-- Panic outcomes of the worker loop and of the facade, one per `expect` or
`unwrap` reachable in the embedded code paths. -/
inductive PanicMsg
  | noToken
  | missingEntry
  | tokenMismatch
  | missingStatus
  | missingUrl
  | utf8Panic
deriving Repr, DecidableEq

/-- Observable events of one loop iteration: a registration binding a token to
a URL, a `Response` pushed on the response channel for a token, and a call to
`Multi::wait` with its timeout in milliseconds. -/
inductive Event
  | reg (token : Nat) (url : String)
  | emit (token : Nat) (r : Response)
  | waited (ms : Nat)
deriving Repr, DecidableEq

/-- Lookup in an association list, first match wins; models `HashMap` lookup
given that inserts are conses of fresh keys. -/
def alookup {α : Type} (t : Nat) : List (Nat × α) → Option α
  | [] => none
  | (k, v) :: rest => if k = t then some v else alookup t rest

/-- Update the first entry for a key in an association list, identity when the
key is absent; models in-place mutation through `HashMap::get_mut`. -/
def amodify {α : Type} (t : Nat) (f : α → α) : List (Nat × α) → List (Nat × α)
  | [] => []
  | (k, v) :: rest => if k = t then (k, f v) :: rest else (k, v) :: amodify t f rest

/-- State of `Downloader::thread_runner` across iterations (lib.rs lines
86-91): the `handles` and `urls` tables, `last_token`, and the
`processing_requests` flag.  `active` is the running-transfer count inside the
`Multi`, the quantity whose current value `Multi::perform` returns; it is
carried here so the oracle input can be constrained to realistic values. -/
structure RunnerState where
  handles : List (Nat × HandleState)
  urls : List (Nat × String)
  lastToken : Nat
  processing : Bool
  active : Nat
deriving Repr, DecidableEq

/-- Initial state of the worker loop (lib.rs lines 86-91): empty tables,
`last_token = 0`, `processing_requests = true`, nothing running. -/
def initState : RunnerState :=
  { handles := [], urls := [], lastToken := 0, processing := true, active := 0 }

/-- Embeds the blocking bound of `Downloader::get_task` (lib.rs lines 71-83):
with `processing_requests` false the pull is `recv_timeout(500ms)`, otherwise
it is a non-blocking `try_recv`, i.e. a zero blocking bound. -/
def taskPullTimeoutMs (processing : Bool) : Nat :=
  if processing then 0 else 500

/-- Result of `Downloader::get_task`: in either mode the pull yields whatever
the task channel produced within the blocking bound of the mode. -/
def get_task (avail : Option String) : Option String := avail

/-- Embeds the `Ok(url)` branch of the pull (lib.rs lines 96-115): set
`processing_requests = true`, take `last_token` as the token and increment it,
add a fresh handle with an empty collector to the multi, and insert the
token into both tables. -/
def registerRequest (s : RunnerState) (url : String) : RunnerState × Event :=
  let token := s.lastToken
  ({ handles := (token, { buffer := [], responseCode := none }) :: s.handles,
     urls := (token, url) :: s.urls,
     lastToken := token + 1,
     processing := true,
     active := s.active + 1 },
   Event.reg token url)

/-- The task-pull step of one iteration (lib.rs lines 95-119): register on
`Ok`, do nothing on `Err`. -/
def pullPhase (s : RunnerState) (task : Option String) : RunnerState × List Event :=
  match get_task task with
  | some url =>
      let p := registerRequest s url
      (p.1, [p.2])
  | none => (s, [])

/-- Apply one piece of network activity to the handle table. -/
def applyNetEvent (hs : List (Nat × HandleState)) : NetEvent → List (Nat × HandleState)
  | NetEvent.write t chunk =>
      amodify t (fun h => { h with buffer := (Collector.write h.buffer chunk).1 }) hs
  | NetEvent.setCode t c =>
      amodify t (fun h => { h with responseCode := some c }) hs

/-- Embeds `multi.perform()` and the mode flip (lib.rs lines 121-126): network
activity lands in the collectors, the running count becomes the value
`perform` returns, and `processing_requests` is set to false exactly when that
value is 0. -/
def performPhase (s : RunnerState) (netEvents : List NetEvent) (performResult : Nat) :
    RunnerState :=
  { s with
    handles := netEvents.foldl applyNetEvent s.handles,
    active := performResult,
    processing := if performResult = 0 then false else s.processing }

/-- Embeds the body of the `multi.messages` closure (lib.rs lines 128-158):
unwrap the token, look the handle up (`expect` when absent), read the
transfer result (`expect` on a token mismatch), then build the `Response`
pushed on the channel - HTTP status and accumulated buffer on `Ok`, sentinel
`-1` and empty body on `Err`.  The token is returned alongside the response
purely so the emission can be correlated in the event log. -/
def processMessage (s : RunnerState) (m : Message) : Except PanicMsg (Nat × Response) :=
  match m.token with
  | none => Except.error PanicMsg.noToken
  | some t =>
    match alookup t s.handles with
    | none => Except.error PanicMsg.missingEntry
    | some h =>
      match m.result with
      | none => Except.error PanicMsg.tokenMismatch
      | some TransferResult.ok =>
        match h.responseCode with
        | none => Except.error PanicMsg.missingStatus
        | some code =>
          match alookup t s.urls with
          | none => Except.error PanicMsg.missingUrl
          | some u =>
              Except.ok (t, { url := u, status_code := (code : Int), data := h.buffer })
      | some TransferResult.err =>
        match alookup t s.urls with
        | none => Except.error PanicMsg.missingUrl
        | some u =>
            Except.ok (t, { url := u, status_code := -1, data := [] })

/-- Drain every message of the iteration in order (lib.rs lines 128-159); the
closure mutates neither table, so the state is read-only here. -/
def drainMessages (s : RunnerState) : List Message → Except PanicMsg (List Event)
  | [] => Except.ok []
  | m :: rest =>
    match processMessage s m with
    | Except.error e => Except.error e
    | Except.ok (t, r) =>
      match drainMessages s rest with
      | Except.error e => Except.error e
      | Except.ok evs => Except.ok (Event.emit t r :: evs)

/-- Embeds the tail of the iteration (lib.rs lines 161-166): when
`processing_requests` is still true the loop blocks in
`multi.wait(&mut [], 10ms)`. -/
def waitPhase (processing : Bool) : List Event :=
  if processing then [Event.waited 10] else []

/-- One iteration of the `while self.running` loop of
`Downloader::thread_runner` (lib.rs lines 92-167). -/
def step (s : RunnerState) (inp : IterInput) : Except PanicMsg (RunnerState × List Event) :=
  let pulled := pullPhase s inp.task
  let s2 := performPhase pulled.1 inp.netEvents inp.performResult
  match drainMessages s2 inp.messages with
  | Except.error e => Except.error e
  | Except.ok evs2 => Except.ok (s2, pulled.2 ++ evs2 ++ waitPhase s2.processing)

/-- Run the worker loop over a list of oracle inputs, concatenating the event
logs of the iterations. -/
def run (s : RunnerState) : List IterInput → Except PanicMsg (RunnerState × List Event)
  | [] => Except.ok (s, [])
  | inp :: rest =>
    match step s inp with
    | Except.error e => Except.error e
    | Except.ok (s1, evs1) =>
      match run s1 rest with
      | Except.error e => Except.error e
      | Except.ok (s2, evs2) => Except.ok (s2, evs1 ++ evs2)

/-- Realism constraint on one oracle input: `Multi::perform` reports the
transfers still running, so its value never exceeds the running count plus
the at most one handle added this iteration - transfers finish, they do not
reappear. -/
abbrev ValidInput (s : RunnerState) (inp : IterInput) : Prop :=
  inp.performResult ≤ s.active + (if inp.task.isSome then 1 else 0)

/-- Loop invariant: the mode flag is cleared only when nothing is running. -/
abbrev Inv (s : RunnerState) : Prop :=
  s.processing = false → s.active = 0

/-- Tokens of the registration events of a log, in order. -/
def regTokens : List Event → List Nat
  | [] => []
  | Event.reg t _ :: evs => t :: regTokens evs
  | _ :: evs => regTokens evs

/-! The caller-facing facade: `CurlDownloader::fetch` (lib.rs lines 222-241)
receives from the response channel with a caller-supplied timeout, decodes the
body as UTF-8 (`str::from_utf8(..).unwrap()`, a panic on invalid bytes) and
wraps the result; a receive timeout returns `Ok(None)`. -/

/-- Whether a byte is in a closed range. -/
def byteIn (lo hi b : Byte) : Bool :=
  decide (lo ≤ b) && decide (b ≤ hi)

/-- Whether a continuation byte is in the range `0x80..=0xBF`. -/
def utf8Cont (b : Byte) : Bool :=
  byteIn 0x80 0xBF b

/-- Validity of a byte sequence as UTF-8, modelled from the checks performed
by `core::str::from_utf8`: ASCII passes, `0x80..=0xC1` and `0xF5..=0xFF` lead
bytes are rejected, multi-byte sequences need in-range continuation bytes with
the usual tightened first-continuation ranges that exclude overlong forms,
surrogates and code points above `U+10FFFF`. -/
def validUtf8 : List Byte → Bool
  | [] => true
  | b :: rest =>
    if b ≤ 0x7F then validUtf8 rest
    else if b < 0xC2 then false
    else if b ≤ 0xDF then
      match rest with
      | c1 :: r => utf8Cont c1 && validUtf8 r
      | [] => false
    else if b ≤ 0xEF then
      match rest with
      | c1 :: c2 :: r =>
          (if b = 0xE0 then byteIn 0xA0 0xBF c1
           else if b = 0xED then byteIn 0x80 0x9F c1
           else utf8Cont c1) && utf8Cont c2 && validUtf8 r
      | _ => false
    else if b ≤ 0xF4 then
      match rest with
      | c1 :: c2 :: c3 :: r =>
          (if b = 0xF0 then byteIn 0x90 0xBF c1
           else if b = 0xF4 then byteIn 0x80 0x8F c1
           else utf8Cont c1) && utf8Cont c2 && utf8Cont c3 && validUtf8 r
      | _ => false
    else false

/-- Embeds `struct ResponsePython` (lib.rs lines 176-181).  Its `data` field
is a Rust `String`, i.e. the UTF-8 decoded body; a decoded string is modelled
here by its byte sequence, which decoding does not change. -/
structure ResponsePython where
  url : String
  status_code : Int
  data : List Byte
deriving Repr, DecidableEq

/-- Embeds `CurlDownloader::fetch` from the point where
`recv_timeout` has produced its outcome (lib.rs lines 227-240): `Ok(response)`
is decoded - `str::from_utf8(&response.data).unwrap()` panics on invalid
UTF-8 - and returned as `Some`; the timeout error returns `Ok(None)`. -/
def fetchRecv (recvResult : Option Response) : Except PanicMsg (Option ResponsePython) :=
  match recvResult with
  | some r =>
      if validUtf8 r.data then
        Except.ok (some { url := r.url, status_code := r.status_code, data := r.data })
      else
        Except.error PanicMsg.utf8Panic
  | none => Except.ok none

/-! Lock discipline of the `DOWNLOADER` mutex.  Each code path that touches
the `lazy_static` singleton is abstracted to its sequence of synchronization
actions, in source order; a Rust `MutexGuard` is released when it goes out of
scope, so a release appears exactly where the guard is dropped. -/

/-- Synchronization-relevant actions of a code path using the `DOWNLOADER`
mutex. -/
inductive SyncAction
  | lockAcquire
  | lockRelease
  | chanSend
  | chanTryRecv
  | chanRecvTimeout (ms : Nat)
  | multiWait (ms : Nat)
  | pure_
deriving Repr, DecidableEq

/-- Whether an action blocks the calling thread (bounded or not): timed
channel receives and the readiness wait of the multi block; a send on an
unbounded channel and a `try_recv` do not. -/
def blocks : SyncAction → Bool
  | SyncAction.chanRecvTimeout _ => true
  | SyncAction.multiWait _ => true
  | _ => false

/-- Whether some blocking action of the trace is executed while the mutex is
held: fold the trace tracking the held flag. -/
def heldAcrossBlockingWait (acts : List SyncAction) : Bool :=
  (acts.foldl
    (fun (st : Bool × Bool) a =>
      match a with
      | SyncAction.lockAcquire => (true, st.2)
      | SyncAction.lockRelease => (false, st.2)
      | a' => (st.1, st.2 || (st.1 && blocks a')))
    (false, false)).2

/-- Synchronization trace of `CurlDownloader::fetch` (lib.rs lines 222-241):
the `DOWNLOADER` guard is taken, the receiver endpoint is cloned, then the
thread blocks in `recv_timeout` with the caller-supplied timeout while the
guard is still alive; the guard drops only at the end of the function. -/
def fetchSyncActions (timeoutMs : Nat) : List SyncAction :=
  [SyncAction.lockAcquire, SyncAction.pure_,
   SyncAction.chanRecvTimeout timeoutMs, SyncAction.lockRelease]

/-- Synchronization trace of `CurlDownloader::add_request` (lib.rs lines
215-219): guard taken, one send on the unbounded task channel, guard
dropped. -/
def addRequestSyncActions : List SyncAction :=
  [SyncAction.lockAcquire, SyncAction.chanSend, SyncAction.lockRelease]

/-- Synchronization actions of one worker-loop iteration, given the mode at
its task pull and whether `multi.wait` runs at its end: the pull is a
`try_recv` or a 500ms `recv_timeout` (lib.rs lines 71-83), the tail wait is
`multi.wait(.., 10ms)` (lib.rs line 165). -/
def iterSyncActions (processingAtPull : Bool) (waits : Bool) : List SyncAction :=
  (if processingAtPull then [SyncAction.chanTryRecv]
   else [SyncAction.chanRecvTimeout 500]) ++
  (if waits then [SyncAction.multiWait 10] else [])

/-- Synchronization trace of the spawned worker thread (lib.rs lines
250-253) over its first two iterations with an empty task queue: the thread
locks `DOWNLOADER` and then runs `thread_runner` with the guard alive for the
whole loop, so no release ever occurs; iteration one pulls non-blocking
(initial mode) and flips to idle, iteration two blocks 500ms in the pull. -/
def workerSyncActions : List SyncAction :=
  SyncAction.lockAcquire ::
    (iterSyncActions true false ++ iterSyncActions false false)

/-! Concrete oracle inputs and their computed outcomes, used to instantiate
the theorems below on closed data. -/

/-- A two-iteration oracle trace: one registration, then its completion with
HTTP status 200 and no body bytes. -/
def c1Inputs : List IterInput :=
  [{ task := some "http://example.com", netEvents := [], performResult := 1,
     messages := [] },
   { task := none, netEvents := [NetEvent.setCode 0 200], performResult := 0,
     messages := [{ token := some 0, result := some TransferResult.ok }] }]

/-- Final state of the worker after `c1Inputs`. -/
def c1Final : RunnerState :=
  { handles := [(0, { buffer := [], responseCode := some 200 })],
    urls := [(0, "http://example.com")],
    lastToken := 1, processing := false, active := 0 }

/-- Event log of the worker over `c1Inputs`. -/
def c1Events : List Event :=
  [Event.reg 0 "http://example.com", Event.waited 10,
   Event.emit 0 { url := "http://example.com", status_code := 200, data := [] }]

/-- A worker state with one outstanding transfer whose handle has accumulated
two body bytes and carries HTTP status 404. -/
def c2State : RunnerState :=
  { handles := [(0, { buffer := [104, 105], responseCode := some 404 })],
    urls := [(0, "http://example.com/missing")],
    lastToken := 1, processing := true, active := 1 }

/-- A completion message for token 0 with a transport-successful result. -/
def c2MsgOk : Message := { token := some 0, result := some TransferResult.ok }

/-- One full register-then-complete round trip, the churn scenario of the
correlation-table claim. -/
def c3Inputs : List IterInput :=
  [{ task := some "http://example.com", netEvents := [], performResult := 1,
     messages := [] },
   { task := none, netEvents := [NetEvent.setCode 0 200], performResult := 0,
     messages := [{ token := some 0, result := some TransferResult.ok }] }]

/-- Final state after the `c3Inputs` round trip: both tables still hold the
entry of the completed token. -/
def c3Final : RunnerState :=
  { handles := [(0, { buffer := [], responseCode := some 200 })],
    urls := [(0, "http://example.com")],
    lastToken := 1, processing := false, active := 0 }

/-- Event log of the `c3Inputs` round trip: the completion was drained and its
response emitted. -/
def c3Events : List Event :=
  [Event.reg 0 "http://example.com", Event.waited 10,
   Event.emit 0 { url := "http://example.com", status_code := 200, data := [] }]

/-- An idle iteration: no task arrives, nothing is running. -/
def c5Input : IterInput :=
  { task := none, netEvents := [], performResult := 0, messages := [] }

/-- State after running `c5Input` from the initial state. -/
def c5Final : RunnerState :=
  { handles := [], urls := [], lastToken := 0, processing := false, active := 0 }

/-- Two busy iterations, each registering one task that keeps running. -/
def c7Inputs : List IterInput :=
  [{ task := some "http://a.example", netEvents := [], performResult := 1,
     messages := [] },
   { task := some "http://b.example", netEvents := [], performResult := 2,
     messages := [] }]

/-- Final state after `c7Inputs`. -/
def c7Final : RunnerState :=
  { handles := [(1, { buffer := [], responseCode := none }),
                (0, { buffer := [], responseCode := none })],
    urls := [(1, "http://b.example"), (0, "http://a.example")],
    lastToken := 2, processing := true, active := 2 }

/-- Event log of the worker over `c7Inputs`. -/
def c7Events : List Event :=
  [Event.reg 0 "http://a.example", Event.waited 10,
   Event.reg 1 "http://b.example", Event.waited 10]

/-- A busy iteration: a task is pulled and keeps running. -/
def c9Input : IterInput :=
  { task := some "http://w9.example", netEvents := [], performResult := 1,
    messages := [] }

/-- State after running `c9Input` from the initial state. -/
def c9Final : RunnerState :=
  { handles := [(0, { buffer := [], responseCode := none })],
    urls := [(0, "http://w9.example")],
    lastToken := 1, processing := true, active := 1 }

/-- Event log of the `c9Input` iteration. -/
def c9Events : List Event :=
  [Event.reg 0 "http://w9.example", Event.waited 10]

/-! Helper lemmas about the association-list tables. -/

theorem alookup_cons {α : Type} (t k : Nat) (v : α) (l : List (Nat × α)) :
    alookup t ((k, v) :: l) = if k = t then some v else alookup t l := rfl

theorem alookup_mem {α : Type} {t : Nat} {v : α} :
    ∀ {l : List (Nat × α)}, alookup t l = some v → (t, v) ∈ l := by
  intro l
  induction l with
  | nil => intro h; simp [alookup] at h
  | cons p rest ih =>
      intro h
      obtain ⟨k, w⟩ := p
      rw [alookup_cons] at h
      by_cases hk : k = t
      · subst hk
        simp at h
        subst h
        exact List.mem_cons_self _ _
      · rw [if_neg hk] at h
        exact List.mem_cons_of_mem _ (ih h)

/-! Helper lemmas about one iteration of the worker loop. -/

/-- Well-formedness of the url table: every key was allocated below
`last_token`.  This holds because keys are only ever taken from the
monotonically increasing counter. -/
def UrlsWF (s : RunnerState) : Prop :=
  ∀ p ∈ s.urls, p.1 < s.lastToken

theorem urlswf_init : UrlsWF initState := by
  intro p hp
  simp [initState] at hp

/-- Destructor for a successful iteration: the resulting state is the perform
phase applied to the pull phase, and the event log splits into pull events,
drained emissions and the optional wait marker. -/
theorem step_ok_elim {s s' : RunnerState} {inp : IterInput} {evs : List Event}
    (h : step s inp = Except.ok (s', evs)) :
    s' = performPhase (pullPhase s inp.task).1 inp.netEvents inp.performResult ∧
    ∃ evs2, drainMessages s' inp.messages = Except.ok evs2 ∧
      evs = (pullPhase s inp.task).2 ++ evs2 ++ waitPhase s'.processing := by
  simp only [step] at h
  cases hd : drainMessages (performPhase (pullPhase s inp.task).1 inp.netEvents
      inp.performResult) inp.messages with
  | error e => rw [hd] at h; exact absurd h (by simp)
  | ok evs2 =>
      rw [hd] at h
      simp only [Except.ok.injEq, Prod.mk.injEq] at h
      obtain ⟨h1, h2⟩ := h
      subst h1
      exact ⟨rfl, evs2, hd, h2.symm⟩

theorem pullPhase_none (s : RunnerState) : pullPhase s none = (s, []) := rfl

theorem pullPhase_some (s : RunnerState) (u : String) :
    pullPhase s (some u) =
      ((registerRequest s u).1, [Event.reg s.lastToken u]) := rfl

theorem performPhase_urls (s : RunnerState) (ne : List NetEvent) (pr : Nat) :
    (performPhase s ne pr).urls = s.urls := rfl

theorem performPhase_lastToken (s : RunnerState) (ne : List NetEvent) (pr : Nat) :
    (performPhase s ne pr).lastToken = s.lastToken := rfl

theorem performPhase_active (s : RunnerState) (ne : List NetEvent) (pr : Nat) :
    (performPhase s ne pr).active = pr := rfl

theorem performPhase_processing (s : RunnerState) (ne : List NetEvent) (pr : Nat) :
    (performPhase s ne pr).processing =
      (if pr = 0 then false else s.processing) := rfl

/-- Shape of the url table and token counter after one iteration: unchanged
when no task was pulled, extended by one fresh entry keyed with the old
counter value when one was. -/
theorem step_urls_shape {s s' : RunnerState} {inp : IterInput} {evs : List Event}
    (h : step s inp = Except.ok (s', evs)) :
    (inp.task = none ∧ s'.urls = s.urls ∧ s'.lastToken = s.lastToken) ∨
    (∃ u, inp.task = some u ∧ s'.urls = (s.lastToken, u) :: s.urls ∧
      s'.lastToken = s.lastToken + 1) := by
  obtain ⟨hs, -⟩ := step_ok_elim h
  cases htask : inp.task with
  | none =>
      left
      subst hs
      rw [htask, pullPhase_none]
      exact ⟨rfl, rfl, rfl⟩
  | some u =>
      right
      refine ⟨u, rfl, ?_, ?_⟩ <;>
        (subst hs; rw [htask, pullPhase_some]; rfl)

theorem urlswf_step {s s' : RunnerState} {inp : IterInput} {evs : List Event}
    (hwf : UrlsWF s) (h : step s inp = Except.ok (s', evs)) : UrlsWF s' := by
  rcases step_urls_shape h with ⟨-, hu, hl⟩ | ⟨u, -, hu, hl⟩
  · intro p hp
    rw [hu] at hp
    rw [hl]
    exact hwf p hp
  · intro p hp
    rw [hu] at hp
    rw [hl]
    rcases List.mem_cons.mp hp with hhd | htl
    · subst hhd; exact Nat.lt_succ_self _
    · exact Nat.lt_succ_of_lt (hwf p htl)

/-- A url-table binding survives an iteration: the only insertion uses the
fresh key `last_token`, which no existing binding can carry. -/
theorem lookup_stable_step {s s' : RunnerState} {inp : IterInput} {evs : List Event}
    {t : Nat} {u : String}
    (hwf : UrlsWF s) (h : step s inp = Except.ok (s', evs))
    (hl : alookup t s.urls = some u) : alookup t s'.urls = some u := by
  rcases step_urls_shape h with ⟨-, hu, -⟩ | ⟨u', -, hu, -⟩
  · rw [hu]; exact hl
  · rw [hu, alookup_cons]
    have ht : t < s.lastToken := hwf (t, u) (alookup_mem hl)
    rw [if_neg (Nat.ne_of_gt ht)]
    exact hl

/-- Characterization of a transport-successful completion (lib.rs lines
138-148): token present, entry present, transfer `Ok`, status available -
the pushed response carries the table url, the verbatim HTTP status and the
accumulated buffer. -/
theorem processMessage_success {s : RunnerState} {m : Message} {t : Nat}
    {hdl : HandleState} {code : Nat} {u : String}
    (htok : m.token = some t) (hh : alookup t s.handles = some hdl)
    (hres : m.result = some TransferResult.ok) (hc : hdl.responseCode = some code)
    (hu : alookup t s.urls = some u) :
    processMessage s m =
      Except.ok (t, { url := u, status_code := (code : Int), data := hdl.buffer }) := by
  simp [processMessage, htok, hh, hres, hc, hu]

/-- Characterization of a transport-failed completion (lib.rs lines 150-157):
the pushed response carries the table url, the sentinel status `-1` and an
empty body. -/
theorem processMessage_failure {s : RunnerState} {m : Message} {t : Nat}
    {hdl : HandleState} {u : String}
    (htok : m.token = some t) (hh : alookup t s.handles = some hdl)
    (hres : m.result = some TransferResult.err)
    (hu : alookup t s.urls = some u) :
    processMessage s m =
      Except.ok (t, { url := u, status_code := -1, data := [] }) := by
  simp [processMessage, htok, hh, hres, hu]

/-- A pushed response always carries the url stored in the table under the
token of its message. -/
theorem processMessage_ok_url {s : RunnerState} {m : Message} {t : Nat} {r : Response}
    (h : processMessage s m = Except.ok (t, r)) :
    alookup t s.urls = some r.url := by
  cases htok : m.token with
  | none => simp [processMessage, htok] at h
  | some t0 =>
    cases hh : alookup t0 s.handles with
    | none => simp [processMessage, htok, hh] at h
    | some hdl =>
      cases hres : m.result with
      | none => simp [processMessage, htok, hh, hres] at h
      | some res =>
        cases res with
        | ok =>
          cases hc : hdl.responseCode with
          | none => simp [processMessage, htok, hh, hres, hc] at h
          | some code =>
            cases hu : alookup t0 s.urls with
            | none => simp [processMessage, htok, hh, hres, hc, hu] at h
            | some u =>
              rw [processMessage_success htok hh hres hc hu] at h
              simp only [Except.ok.injEq, Prod.mk.injEq] at h
              obtain ⟨h1, h2⟩ := h
              subst h1
              rw [← h2]
              exact hu
        | err =>
          cases hu : alookup t0 s.urls with
          | none => simp [processMessage, htok, hh, hres, hu] at h
          | some u =>
            rw [processMessage_failure htok hh hres hu] at h
            simp only [Except.ok.injEq, Prod.mk.injEq] at h
            obtain ⟨h1, h2⟩ := h
            subst h1
            rw [← h2]
            exact hu

/-- Every event produced by draining the message list is an emission whose
response url is the table entry of its token. -/
theorem drain_events {s : RunnerState} :
    ∀ {ms : List Message} {evs : List Event},
      drainMessages s ms = Except.ok evs →
      ∀ e ∈ evs, ∃ t r, e = Event.emit t r ∧ alookup t s.urls = some r.url := by
  intro ms
  induction ms with
  | nil =>
      intro evs h e he
      simp only [drainMessages] at h
      simp only [Except.ok.injEq] at h
      subst h
      exact absurd he (List.not_mem_nil e)
  | cons m rest ih =>
      intro evs h e he
      simp only [drainMessages] at h
      cases hp : processMessage s m with
      | error e0 => rw [hp] at h; exact absurd h (by simp)
      | ok tr =>
          rw [hp] at h
          obtain ⟨t0, r0⟩ := tr
          cases hd : drainMessages s rest with
          | error e0 => rw [hd] at h; exact absurd h (by simp)
          | ok evs0 =>
              rw [hd] at h
              simp only [Except.ok.injEq] at h
              subst h
              rcases List.mem_cons.mp he with hhd | htl
              · exact ⟨t0, r0, hhd, processMessage_ok_url hp⟩
              · exact ih hd e htl

/-- Pull-phase events are registrations of the old counter value, recorded in
the url table of any state extending the pull result. -/
theorem pull_events {s : RunnerState} {task : Option String} :
    ∀ e ∈ (pullPhase s task).2, ∃ u, task = some u ∧ e = Event.reg s.lastToken u := by
  intro e he
  cases task with
  | none => rw [pullPhase_none] at he; exact absurd he (List.not_mem_nil e)
  | some u =>
      rw [pullPhase_some] at he
      rcases List.mem_cons.mp he with hhd | htl
      · exact ⟨u, rfl, hhd⟩
      · exact absurd htl (List.not_mem_nil e)

/-- Membership of the wait marker in the wait phase. -/
theorem waitPhase_mem {p : Bool} {d : Nat} :
    Event.waited d ∈ waitPhase p ↔ p = true ∧ d = 10 := by
  cases p <;> simp [waitPhase]

/-- The wait phase emits nothing but the 10ms wait marker. -/
theorem waitPhase_only_waited {p : Bool} {e : Event} (h : e ∈ waitPhase p) :
    e = Event.waited 10 := by
  cases p
  · simp [waitPhase] at h
  · simp [waitPhase] at h
    exact h

/-- The iteration emits the 10ms wait marker exactly when the mode flag is
still set after the perform phase, and no other wait duration ever occurs. -/
theorem step_waited_mem {s s' : RunnerState} {inp : IterInput} {evs : List Event}
    (h : step s inp = Except.ok (s', evs)) (d : Nat) :
    (Event.waited d ∈ evs ↔ s'.processing = true ∧ d = 10) := by
  obtain ⟨hs, evs2, hd, hevs⟩ := step_ok_elim h
  subst hevs
  constructor
  · intro hmem
    rcases List.mem_append.mp hmem with hmem' | hw
    · rcases List.mem_append.mp hmem' with hpull | hdrain
      · obtain ⟨u, -, he⟩ := pull_events _ hpull
        exact absurd he (by simp)
      · obtain ⟨t, r, he, -⟩ := drain_events hd _ hdrain
        exact absurd he (by simp)
    · exact waitPhase_mem.mp hw
  · intro ⟨hp, hd10⟩
    subst hd10
    refine List.mem_append.mpr (Or.inr (waitPhase_mem.mpr ⟨hp, rfl⟩))

/-- Mode and counter bookkeeping of one iteration, under the input realism
constraint and the loop invariant: the flag is cleared after the iteration
exactly when `Multi::perform` reported zero running transfers. -/
theorem step_mode_iff {s s' : RunnerState} {inp : IterInput} {evs : List Event}
    (hinv : Inv s) (hval : ValidInput s inp)
    (h : step s inp = Except.ok (s', evs)) :
    (s'.processing = false ↔ inp.performResult = 0) := by
  obtain ⟨hs, -⟩ := step_ok_elim h
  subst hs
  rw [performPhase_processing]
  by_cases hpr : inp.performResult = 0
  · rw [if_pos hpr]
    exact ⟨fun _ => hpr, fun _ => rfl⟩
  · rw [if_neg hpr]
    have hpull : (pullPhase s inp.task).1.processing = true := by
      cases htask : inp.task with
      | some u => rw [pullPhase_some]; rfl
      | none =>
          rw [pullPhase_none]
          by_contra hfalse
          have hp : s.processing = false := by
            cases hps : s.processing
            · rfl
            · exact absurd hps hfalse
          have hact : s.active = 0 := hinv hp
          have hv : inp.performResult ≤ s.active + (if inp.task.isSome then 1 else 0) :=
            hval
          rw [htask, hact] at hv
          simp at hv
          exact hpr hv
    rw [hpull]
    exact ⟨fun hc => absurd hc (by simp), fun hc => absurd hc hpr⟩

/-- The running count after an iteration is exactly the value `Multi::perform`
returned. -/
theorem step_active {s s' : RunnerState} {inp : IterInput} {evs : List Event}
    (h : step s inp = Except.ok (s', evs)) : s'.active = inp.performResult := by
  obtain ⟨hs, -⟩ := step_ok_elim h
  subst hs
  exact performPhase_active ..

/-- The loop invariant is preserved by every realistic iteration. -/
theorem inv_step {s s' : RunnerState} {inp : IterInput} {evs : List Event}
    (hinv : Inv s) (hval : ValidInput s inp)
    (h : step s inp = Except.ok (s', evs)) : Inv s' := by
  intro hp
  rw [step_active h]
  exact (step_mode_iff hinv hval h).mp hp

/-! Helper lemmas about full runs of the worker loop. -/

/-- Destructor for a successful run over a nonempty input list. -/
theorem run_cons_elim {s s' : RunnerState} {inp : IterInput} {rest : List IterInput}
    {evs : List Event}
    (h : run s (inp :: rest) = Except.ok (s', evs)) :
    ∃ s1 evs1 evs2, step s inp = Except.ok (s1, evs1) ∧
      run s1 rest = Except.ok (s', evs2) ∧ evs = evs1 ++ evs2 := by
  simp only [run] at h
  cases hstep : step s inp with
  | error e => rw [hstep] at h; exact absurd h (by simp)
  | ok p =>
      obtain ⟨s1, evs1⟩ := p
      rw [hstep] at h
      simp only at h
      cases hrun : run s1 rest with
      | error e => rw [hrun] at h; exact absurd h (by simp)
      | ok q =>
          obtain ⟨s2, evs2⟩ := q
          rw [hrun] at h
          simp only [Except.ok.injEq, Prod.mk.injEq] at h
          obtain ⟨h1, h2⟩ := h
          subst h1
          exact ⟨s1, evs1, evs2, rfl, hrun, h2.symm⟩

theorem run_urlswf {s : RunnerState} :
    ∀ {inputs : List IterInput} {s' : RunnerState} {evs : List Event},
      UrlsWF s → run s inputs = Except.ok (s', evs) → UrlsWF s' := by
  intro inputs
  induction inputs generalizing s with
  | nil =>
      intro s' evs hwf h
      simp only [run, Except.ok.injEq, Prod.mk.injEq] at h
      rw [← h.1]
      exact hwf
  | cons inp rest ih =>
      intro s' evs hwf h
      obtain ⟨s1, evs1, evs2, hstep, hrun, -⟩ := run_cons_elim h
      exact ih (urlswf_step hwf hstep) hrun

/-- A url-table binding survives a whole run. -/
theorem run_lookup_stable {s : RunnerState} :
    ∀ {inputs : List IterInput} {s' : RunnerState} {evs : List Event} {t : Nat} {u : String},
      UrlsWF s → run s inputs = Except.ok (s', evs) →
      alookup t s.urls = some u → alookup t s'.urls = some u := by
  intro inputs
  induction inputs generalizing s with
  | nil =>
      intro s' evs t u hwf h hl
      simp only [run, Except.ok.injEq, Prod.mk.injEq] at h
      rw [← h.1]
      exact hl
  | cons inp rest ih =>
      intro s' evs t u hwf h hl
      obtain ⟨s1, evs1, evs2, hstep, hrun, -⟩ := run_cons_elim h
      exact ih (urlswf_step hwf hstep) hrun (lookup_stable_step hwf hstep hl)

/-- Every registration and every emission of a run is recorded in the final
url table: a registered token is bound to its url, and an emitted response
carries the binding of its token. -/
theorem run_events_lookup {s : RunnerState} :
    ∀ {inputs : List IterInput} {s' : RunnerState} {evs : List Event},
      UrlsWF s → run s inputs = Except.ok (s', evs) →
      ∀ e ∈ evs,
        (∀ t u, e = Event.reg t u → alookup t s'.urls = some u) ∧
        (∀ t r, e = Event.emit t r → alookup t s'.urls = some r.url) := by
  intro inputs
  induction inputs generalizing s with
  | nil =>
      intro s' evs hwf h e he
      simp only [run, Except.ok.injEq, Prod.mk.injEq] at h
      rw [← h.2] at he
      exact absurd he (List.not_mem_nil e)
  | cons inp rest ih =>
      intro s' evs hwf h e he
      obtain ⟨s1, evs1, evs2, hstep, hrun, hevs⟩ := run_cons_elim h
      subst hevs
      have hwf1 : UrlsWF s1 := urlswf_step hwf hstep
      rcases List.mem_append.mp he with h1 | h2
      · -- events of the first iteration: look up in s1, then transport to s'
        obtain ⟨hs1, evs2', hd, hevs1⟩ := step_ok_elim hstep
        rw [hevs1] at h1
        constructor
        · intro t u hreg
          subst hreg
          rcases List.mem_append.mp h1 with h1' | hw
          · rcases List.mem_append.mp h1' with hpull | hdrain
            · obtain ⟨u', htask, he'⟩ := pull_events _ hpull
              simp only [Event.reg.injEq] at he'
              obtain ⟨ht', hu'⟩ := he'
              subst ht'; subst hu'
              have : alookup s.lastToken s1.urls = some u := by
                rcases step_urls_shape hstep with ⟨hnone, -, -⟩ | ⟨u2, hsome, hurls, -⟩
                · rw [htask] at hnone; exact absurd hnone (by simp)
                · rw [htask] at hsome
                  simp only [Option.some.injEq] at hsome
                  subst hsome
                  rw [hurls, alookup_cons, if_pos rfl]
              exact run_lookup_stable hwf1 hrun this
            · obtain ⟨t', r', he', -⟩ := drain_events hd _ hdrain
              exact absurd he' (by simp)
          · exact absurd (waitPhase_only_waited hw) (by simp)
        · intro t r hemit
          subst hemit
          rcases List.mem_append.mp h1 with h1' | hw
          · rcases List.mem_append.mp h1' with hpull | hdrain
            · obtain ⟨u', -, he'⟩ := pull_events _ hpull
              exact absurd he' (by simp)
            · obtain ⟨t', r', he', hurl⟩ := drain_events hd _ hdrain
              simp only [Event.emit.injEq] at he'
              obtain ⟨ht', hr'⟩ := he'
              subst ht'; subst hr'
              exact run_lookup_stable hwf1 hrun hurl
          · exact absurd (waitPhase_only_waited hw) (by simp)
      · exact ih hwf1 hrun e h2

theorem regTokens_append (a b : List Event) :
    regTokens (a ++ b) = regTokens a ++ regTokens b := by
  induction a with
  | nil => rfl
  | cons e a ih =>
      cases e with
      | reg t u => simp [regTokens, ih]
      | emit t r => simp [regTokens, ih]
      | waited ms => simp [regTokens, ih]

theorem regTokens_nil_of_no_reg {l : List Event}
    (h : ∀ e ∈ l, ∀ t u, e ≠ Event.reg t u) : regTokens l = [] := by
  induction l with
  | nil => rfl
  | cons e rest ih =>
      cases e with
      | reg t u => exact absurd rfl (h (Event.reg t u) (List.mem_cons_self _ _) t u)
      | emit t r =>
          simp only [regTokens]
          exact ih (fun e he t u => h e (List.mem_cons_of_mem _ he) t u)
      | waited ms =>
          simp only [regTokens]
          exact ih (fun e he t u => h e (List.mem_cons_of_mem _ he) t u)

/-- Registration tokens of one iteration: at most the old counter value,
which the counter then moves past. -/
theorem step_regTokens {s s' : RunnerState} {inp : IterInput} {evs : List Event}
    (h : step s inp = Except.ok (s', evs)) :
    (regTokens evs = [] ∧ s'.lastToken = s.lastToken) ∨
    (regTokens evs = [s.lastToken] ∧ s'.lastToken = s.lastToken + 1) := by
  obtain ⟨hs, evs2, hd, hevs⟩ := step_ok_elim h
  have hdrain : regTokens evs2 = [] :=
    regTokens_nil_of_no_reg (by
      intro e he t u
      obtain ⟨t', r', he', -⟩ := drain_events hd e he
      subst he'
      simp)
  have hwait : regTokens (waitPhase s'.processing) = [] :=
    regTokens_nil_of_no_reg (by
      intro e he t u
      rw [waitPhase_only_waited he]
      simp)
  subst hevs
  rw [regTokens_append, regTokens_append, hdrain, hwait, List.append_nil,
    List.append_nil]
  rcases step_urls_shape h with ⟨htask, -, hl⟩ | ⟨u, htask, -, hl⟩
  · left
    refine ⟨?_, hl⟩
    rw [htask, pullPhase_none]
    rfl
  · right
    refine ⟨?_, hl⟩
    rw [htask, pullPhase_some]
    rfl

/-- Registration tokens of a whole run are bounded by the counter values at
its ends and strictly increase along the run. -/
theorem run_regTokens {s : RunnerState} :
    ∀ {inputs : List IterInput} {s' : RunnerState} {evs : List Event},
      run s inputs = Except.ok (s', evs) →
      s.lastToken ≤ s'.lastToken ∧
      (∀ t ∈ regTokens evs, s.lastToken ≤ t ∧ t < s'.lastToken) ∧
      (regTokens evs).Pairwise (· < ·) := by
  intro inputs
  induction inputs generalizing s with
  | nil =>
      intro s' evs h
      simp only [run, Except.ok.injEq, Prod.mk.injEq] at h
      obtain ⟨h1, h2⟩ := h
      subst h1
      rw [← h2]
      exact ⟨Nat.le_refl _, fun t ht => absurd ht (by simp [regTokens]), by
        simp [regTokens]⟩
  | cons inp rest ih =>
      intro s' evs h
      obtain ⟨s1, evs1, evs2, hstep, hrun, hevs⟩ := run_cons_elim h
      obtain ⟨hmono, hbounds, hpw⟩ := ih hrun
      subst hevs
      rw [regTokens_append]
      rcases step_regTokens hstep with ⟨hr1, hl1⟩ | ⟨hr1, hl1⟩
      · rw [hr1, List.nil_append]
        refine ⟨?_, ?_, hpw⟩
        · rw [hl1] at hmono; exact hmono
        · intro t ht
          obtain ⟨hlo, hhi⟩ := hbounds t ht
          rw [hl1] at hlo
          exact ⟨hlo, hhi⟩
      · rw [hr1]
        have hmono' : s.lastToken ≤ s'.lastToken := by
          rw [hl1] at hmono
          exact Nat.le_of_succ_le hmono
        refine ⟨hmono', ?_, ?_⟩
        · intro t ht
          rcases List.mem_cons.mp ht with hhd | htl
          · subst hhd
            refine ⟨Nat.le_refl _, ?_⟩
            rw [hl1] at hmono
            exact Nat.lt_of_succ_le hmono
          · obtain ⟨hlo, hhi⟩ := hbounds t htl
            rw [hl1] at hlo
            exact ⟨Nat.le_of_succ_le hlo, hhi⟩
        · rw [List.singleton_append, List.pairwise_cons]
          refine ⟨?_, hpw⟩
          intro b hb
          have := (hbounds b hb).1
          rw [hl1] at this
          exact Nat.lt_of_succ_le this


/-! Claim theorems. -/

/-- Claim C1: for every completed transfer, the Response pushed onto the
response queue has url equal to the URL of the Request that originated that
token - over any panic-free run of the worker loop, a registration of token
`t` with url `u` and an emission for token `t` agree on the url, so the
engine never cross-wires the URLs of two concurrent transfers. -/
theorem C1_response_url_never_crosswired {inputs : List IterInput}
    {s' : RunnerState} {evs : List Event} {t : Nat} {u : String} {r : Response}
    (hrun : run initState inputs = Except.ok (s', evs))
    (hreg : Event.reg t u ∈ evs) (hemit : Event.emit t r ∈ evs) :
    r.url = u := by
  have hr := (run_events_lookup urlswf_init hrun (Event.reg t u) hreg).1 t u rfl
  have he := (run_events_lookup urlswf_init hrun (Event.emit t r) hemit).2 t r rfl
  rw [hr] at he
  exact (Option.some.inj he).symm

/-- Witness for claim C1: a concrete run registering token 0 for a URL and
emitting a response for token 0 with that same URL. -/
theorem C1_witness :
    run initState c1Inputs = Except.ok (c1Final, c1Events) ∧
    Response.url { url := "http://example.com", status_code := 200, data := [] } =
      "http://example.com" :=
  ⟨by rfl,
   @C1_response_url_never_crosswired c1Inputs c1Final c1Events 0 "http://example.com"
     { url := "http://example.com", status_code := 200, data := [] }
     (by rfl) (by decide) (by decide)⟩

/-- Claim C2: a completion whose transfer succeeded at the transport level
produces a Response with the server-reported HTTP status verbatim (as the
`i64` cast of the `u32` code, including non-2xx values) and the accumulated
body; a transport-level failure produces the sentinel `-1` and an empty
body. -/
theorem C2_completion_status_and_body {s : RunnerState} {m : Message} {t : Nat}
    {hdl : HandleState} {u : String}
    (htok : m.token = some t) (hh : alookup t s.handles = some hdl)
    (hu : alookup t s.urls = some u) :
    (m.result = some TransferResult.err →
       processMessage s m =
         Except.ok (t, { url := u, status_code := -1, data := [] })) ∧
    (∀ code, m.result = some TransferResult.ok → hdl.responseCode = some code →
       processMessage s m =
         Except.ok (t, { url := u, status_code := (code : Int), data := hdl.buffer })) :=
  ⟨fun hres => processMessage_failure htok hh hres hu,
   fun _code hres hc => processMessage_success htok hh hres hc hu⟩

/-- Witness for claim C2: a transport-successful 404 completion keeps the 404
verbatim and carries the accumulated two body bytes. -/
theorem C2_witness :
    processMessage c2State c2MsgOk =
      Except.ok (0, { url := "http://example.com/missing"
                      status_code := 404
                      data := [104, 105] }) :=
  (@C2_completion_status_and_body c2State c2MsgOk 0
    { buffer := [104, 105], responseCode := some 404 } "http://example.com/missing"
    rfl rfl rfl).2 404 rfl rfl

/-- Claim C3 is refuted by the code: the `multi.messages` closure looks the
handle up with `get_mut` but never removes the token from either table and
never calls `Multi::remove2`, so after a full register-and-complete round
trip - the completion drained and its response emitted - both tables still
hold the entry of the completed token instead of returning to empty. -/
theorem C3_correlation_entry_not_removed :
    run initState c3Inputs = Except.ok (c3Final, c3Events) ∧
    c3Final.urls ≠ [] ∧ c3Final.handles ≠ [] :=
  ⟨by rfl, by decide, by decide⟩

/-- Claim C4 is refuted by the code: the synchronization trace of
`CurlDownloader::fetch` blocks in `recv_timeout` while the `DOWNLOADER` guard
is alive, and the spawned worker locks `DOWNLOADER` before entering
`thread_runner` and never releases it, so its blocking pulls also run under
the mutex; only `add_request` respects the claimed discipline. -/
theorem C4_mutex_held_across_blocking_wait (timeoutMs : Nat) :
    heldAcrossBlockingWait (fetchSyncActions timeoutMs) = true ∧
    heldAcrossBlockingWait workerSyncActions = true ∧
    heldAcrossBlockingWait addRequestSyncActions = false :=
  ⟨rfl, rfl, rfl⟩

/-- Claim C5: the task pull blocks up to 500ms exactly in idle-poll mode
(`processing_requests` false) and is non-blocking in draining mode; after
any realistic iteration the loop is in idle-poll for the next pull exactly
when `Multi::perform` reported zero remaining transfers; and pulling a task
puts the loop back in draining mode. -/
theorem C5_pull_mode_discipline {s s' : RunnerState} {inp : IterInput}
    {evs : List Event}
    (hinv : Inv s) (hval : ValidInput s inp)
    (hstep : step s inp = Except.ok (s', evs)) :
    (taskPullTimeoutMs false = 500 ∧ taskPullTimeoutMs true = 0) ∧
    (s'.processing = false ↔ inp.performResult = 0) ∧
    (∀ url, ((pullPhase s (some url)).1).processing = true) := by
  refine ⟨⟨rfl, rfl⟩, step_mode_iff hinv hval hstep, ?_⟩
  intro url
  rw [pullPhase_some]
  exact rfl

/-- Witness for claim C5: an idle iteration from the initial state with
`perform` reporting zero leaves the loop in idle-poll mode. -/
theorem C5_witness :
    Inv initState ∧ ValidInput initState c5Input ∧
    (c5Final.processing = false ↔ c5Input.performResult = 0) :=
  ⟨by decide, by decide,
   (@C5_pull_mode_discipline initState c5Final c5Input [] (by decide) (by decide)
     (by rfl)).2.1⟩

/-- Claim C6: a completion notification whose token has no correlation-table
entry makes the engine fail fatally with the missing-entry panic, and
whenever the token does have an entry that failure branch cannot be taken. -/
theorem C6_missing_entry_is_fatal {s : RunnerState} {m : Message} {t : Nat}
    (htok : m.token = some t) :
    (alookup t s.handles = none →
       processMessage s m = Except.error PanicMsg.missingEntry) ∧
    (∀ hdl, alookup t s.handles = some hdl →
       processMessage s m ≠ Except.error PanicMsg.missingEntry) := by
  constructor
  · intro hh
    simp [processMessage, htok, hh]
  · intro hdl hh
    cases hres : m.result with
    | none => simp [processMessage, htok, hh, hres]
    | some res =>
      cases res with
      | ok =>
          cases hc : hdl.responseCode with
          | none => simp [processMessage, htok, hh, hres, hc]
          | some code =>
              cases hu : alookup t s.urls with
              | none => simp [processMessage, htok, hh, hres, hc, hu]
              | some u =>
                  rw [processMessage_success htok hh hres hc hu]
                  simp
      | err =>
          cases hu : alookup t s.urls with
          | none => simp [processMessage, htok, hh, hres, hu]
          | some u =>
              rw [processMessage_failure htok hh hres hu]
              simp

/-- Witness for claim C6: a completion for the unregistered token 5 in the
initial state panics with the missing-entry message. -/
theorem C6_witness :
    processMessage initState { token := some 5, result := some TransferResult.ok } =
      Except.error PanicMsg.missingEntry :=
  (@C6_missing_entry_is_fatal initState
    { token := some 5, result := some TransferResult.ok } 5 rfl).1 rfl

/-- Claim C7: tokens assigned by registration over any panic-free run are
strictly increasing in assignment order, hence unique - no token is ever
assigned to a new transfer while a prior transfer holds it. -/
theorem C7_tokens_strictly_increasing {inputs : List IterInput}
    {s' : RunnerState} {evs : List Event}
    (hrun : run initState inputs = Except.ok (s', evs)) :
    (regTokens evs).Pairwise (· < ·) :=
  (run_regTokens hrun).2.2

/-- Witness for claim C7: a concrete run with two registrations assigns the
strictly increasing tokens 0 and 1. -/
theorem C7_witness :
    run initState c7Inputs = Except.ok (c7Final, c7Events) ∧
    (regTokens c7Events).Pairwise (· < ·) :=
  ⟨by rfl, @C7_tokens_strictly_increasing c7Inputs c7Final c7Events (by rfl)⟩

/-- Counterexample to claim C8 as stated: a response that does arrive within
the timeout, but whose body byte `0xFF` is not valid UTF-8, makes `fetch`
panic in the decode step instead of returning the Response. -/
theorem C8_counterexample :
    fetchRecv (some { url := "http://example.com"
                      status_code := 200
                      data := [0xFF] }) = Except.error PanicMsg.utf8Panic := by
  rfl

/-- Claim C8 (amended): `poll(timeout_ms)` returns the next available
Response if one arrives within the timeout and its body is valid UTF-8, and
returns the explicit none outcome when the timeout elapses; a timeout itself
is never surfaced as an error or exception. -/
theorem C8_poll_timeout_not_error {r : Response} (h : validUtf8 r.data = true) :
    fetchRecv (some r) =
      Except.ok (some { url := r.url, status_code := r.status_code, data := r.data }) ∧
    fetchRecv none = Except.ok none := by
  constructor
  · simp [fetchRecv, h]
  · rfl

/-- Witness for claim C8: a response with a valid UTF-8 two-byte body is
returned as is. -/
theorem C8_witness :
    validUtf8 [104, 105] = true ∧
    fetchRecv (some { url := "http://example.com"
                      status_code := 200
                      data := [104, 105] }) =
      Except.ok (some { url := "http://example.com"
                        status_code := 200
                        data := [104, 105] }) :=
  ⟨by decide,
   (@C8_poll_timeout_not_error
     { url := "http://example.com", status_code := 200, data := [104, 105] }
     (by decide)).1⟩

/-- Claim C9: after completions are drained, a realistic iteration blocks in
the 10ms readiness wait of the multiplexer exactly when at least one transfer
is still active, and no other wait duration ever occurs. -/
theorem C9_wait_iff_active {s s' : RunnerState} {inp : IterInput}
    {evs : List Event}
    (hinv : Inv s) (hval : ValidInput s inp)
    (hstep : step s inp = Except.ok (s', evs)) :
    (Event.waited 10 ∈ evs ↔ 0 < s'.active) ∧
    (∀ d, Event.waited d ∈ evs → d = 10) := by
  have hw := step_waited_mem hstep
  have hm := step_mode_iff hinv hval hstep
  have ha := step_active hstep
  constructor
  · rw [hw 10]
    constructor
    · intro hp
      rw [ha]
      rcases Nat.eq_zero_or_pos inp.performResult with h0 | hpos
      · rw [hm.mpr h0] at hp
        exact absurd hp.1 (by simp)
      · exact hpos
    · intro hpos
      rw [ha] at hpos
      refine ⟨?_, rfl⟩
      cases hps : s'.processing
      · exact absurd (hm.mp hps) (Nat.pos_iff_ne_zero.mp hpos)
      · rfl
  · intro d hd
    exact ((hw d).mp hd).2

/-- Witness for claim C9: an iteration that registers one task which keeps
running emits the 10ms wait marker. -/
theorem C9_witness :
    Inv initState ∧ ValidInput initState c9Input ∧
    (Event.waited 10 ∈ c9Events ↔ 0 < c9Final.active) :=
  ⟨by decide, by decide,
   (@C9_wait_iff_active initState c9Final c9Input c9Events (by decide) (by decide)
     (by rfl)).1⟩

/-- Claim C10: a received Response whose body bytes are not valid UTF-8 makes
`fetch` panic in the decode step instead of returning a Response or the none
outcome - the caller-facing decode is partial and its failure branch is
reachable for any non-UTF-8 body. -/
theorem C10_nonutf8_body_panics {r : Response} (h : validUtf8 r.data = false) :
    fetchRecv (some r) = Except.error PanicMsg.utf8Panic := by
  simp [fetchRecv, h]

/-- Witness for claim C10: the single continuation byte `0x80` is not valid
UTF-8 and makes the decode step panic. -/
theorem C10_witness :
    validUtf8 [128] = false ∧
    fetchRecv (some { url := "http://example.com/bin"
                      status_code := 200
                      data := [128] }) = Except.error PanicMsg.utf8Panic :=
  ⟨by decide,
   @C10_nonutf8_body_panics
     { url := "http://example.com/bin", status_code := 200, data := [128] }
     (by decide)⟩

end Pycurse
